import Mathlib

/-!
Shallow embedding of `custom_components/solcast_solar/config_flow.py`
(Solcast Solar integration config flow for Home Assistant).

Modelling conventions:
* a Python `str` is a `List Char` (`PyStr`);
* a Python `dict` holding the options record is a partial map
  `String → Option OptVal`;
* the coroutine steps are pure functions from their relevant inputs to a
  `FlowResult` describing which Home Assistant primitive they invoke
  (`async_abort`, `async_create_entry` with options, `async_update_entry`,
  showing the dampening form, or showing their own form);
* Python `str.isnumeric` / `str.isdigit` are modelled as "all ASCII digits";
  exotic Unicode numerals are outside the model;
* `f"{float(h):.1f}"` is modelled as exact decimal round-half-even to one
  fractional digit (`fmt1`); for binary doubles the rounding of values that
  are not exactly representable can differ in the last digit, but on the
  decimal ties that are exactly representable (such as 7.25) CPython also
  rounds half-to-even, so the two agree on every input used below.  Float
  overflow of astronomically large literals (beyond 1e308) is outside the
  model.
-/

namespace SolcastConfigFlow

/-- A Python string, modelled as its list of characters. -/
abbrev PyStr := List Char

/-- Python `s.replace(" ", "")` for the one-character pattern: drop spaces. -/
def pyReplaceSpace (s : PyStr) : PyStr := s.filter (fun c => c ≠ ' ')

/-- Python `s.split(sep)` for a one-character separator: empty pieces are
kept, and splitting the empty string gives `[""]`. -/
def splitOnChar (sep : Char) : PyStr → List PyStr
  | [] => [[]]
  | c :: cs =>
    let rest := splitOnChar sep cs
    if c = sep then [] :: rest
    else
      match rest with
      | [] => [[c]]
      | t :: ts => (c :: t) :: ts

/-- Python `sep.join(ts)` for a one-character separator. -/
def joinSep (sep : Char) : List PyStr → PyStr
  | [] => []
  | [t] => t
  | t :: u :: ts => t ++ sep :: joinSep sep (u :: ts)

/-- Python `s.strip()`: drop leading and trailing whitespace. -/
def pyStrip (s : PyStr) : PyStr :=
  ((s.dropWhile Char.isWhitespace).reverse.dropWhile Char.isWhitespace).reverse

/-- A character in the regex class `[a-z0-9]`. -/
def isLowerAlnum (c : Char) : Bool :=
  (decide ('a' ≤ c) && decide (c ≤ 'z')) || (decide ('0' ≤ c) && decide (c ≤ '9'))

/-- One `[a-z0-9]{4}` group of the site-identifier regex. -/
def group4 (g : PyStr) : Bool := decide (g.length = 4) && g.all isLowerAlnum

/-- Full match of `^[a-z0-9]{4}-[a-z0-9]{4}-[a-z0-9]{4}-[a-z0-9]{4}$` against
the whole string (without the trailing-newline allowance of Python `$`). -/
def likeSiteIdCore (s : PyStr) : Bool :=
  match splitOnChar '-' s with
  | [a, b, c, d] => group4 a && group4 b && group4 c && group4 d
  | _ => false

/-- Python `re.match(LIKE_SITE_ID, key)` being truthy: the anchored pattern
matches the whole string, where Python `$` also matches just before one
trailing newline. -/
def likeSiteId (s : PyStr) : Bool :=
  likeSiteIdCore s ||
    (match s.getLast? with
     | some c => decide (c = '\n') && likeSiteIdCore s.dropLast
     | none => false)

/-- The token list both validators start from: spaces removed, split on
commas, empty tokens dropped (`[s for s in x.split(",") if s]`). -/
def splitField (raw : PyStr) : List PyStr :=
  (splitOnChar ',' (pyReplaceSpace raw)).filter (fun t => !t.isEmpty)

/-- The inner loop of `validate_api_key`: is there an index `i ≠ index`
holding a textually identical key? -/
def hasOtherDuplicate (keys : List PyStr) (index : Nat) (key : PyStr) : Bool :=
  (List.range keys.length).any (fun i => decide (i ≠ index ∧ keys.getD i [] = key))

/-- The outer loop of `validate_api_key` (`for index, key in
enumerate(api_key)`), walking the remaining suffix `rest` with the current
position `index`: first the site-ID shape check for the current key, then
the duplicate scan over the whole list, then the next position. -/
def keyErrorAux (keys : List PyStr) : Nat → List PyStr → Option String
  | _, [] => none
  | index, key :: rest =>
    if likeSiteId key then some "API key looks like a site ID"
    else if hasOtherDuplicate keys index key then some "Duplicate API key specified"
    else keyErrorAux keys (index + 1) rest

/-- `validate_api_key(user_input)` on the `CONF_API_KEY` field: returns the
normalized key string, the key count, and the abort reason (if any). -/
def validate_api_key (rawKey : PyStr) : PyStr × Nat × Option String :=
  let keys := splitField rawKey
  match keyErrorAux keys 0 keys with
  | some e => ([], 0, some e)
  | none => (joinSep ',' keys, keys.length, none)

/-- Python `q.isnumeric()` (and `isdigit()`) restricted to ASCII: a nonempty
all-digit string. -/
def isNumericTok (q : PyStr) : Bool := !q.isEmpty && q.all Char.isDigit

/-- Python `int(q)` for an all-digit string. -/
def digitsToNat (q : PyStr) : Nat := q.foldl (fun n c => n * 10 + (c.toNat - 48)) 0

/-- The per-token loop of `validate_api_limit`. -/
def quotaError : List PyStr → Option String
  | [] => none
  | q :: qs =>
    if !isNumericTok q then some "API limit is not a number"
    else if digitsToNat q < 1 then some "API limit must be one or greater"
    else quotaError qs

/-- `validate_api_limit(user_input, api_count)` on the `API_QUOTA` field:
returns the normalized quota string and the abort reason (if any). -/
def validate_api_limit (rawQuota : PyStr) (api_count : Nat) : PyStr × Option String :=
  let qs := splitField rawQuota
  match quotaError qs with
  | some e => ([], some e)
  | none =>
    if qs.length > api_count then ([], some "There are more API limit counts entered than keys")
    else (joinSep ',' qs, none)

/-- Python `h.replace(".", "", 1)`: remove the first dot, if any. -/
def removeFirstDot : PyStr → PyStr
  | [] => []
  | c :: cs => if c = '.' then cs else c :: removeFirstDot cs

/-- Split at the first dot: `(before, after)`; when no dot is present the
second component is empty. -/
def splitFirstDot : PyStr → PyStr × PyStr
  | [] => ([], [])
  | c :: cs =>
    if c = '.' then ([], cs)
    else
      let p := splitFirstDot cs
      (c :: p.1, p.2)

/-- Round `num / den` to the nearest integer, ties to even (`den > 0`). -/
def roundHalfEven (num den : Nat) : Nat :=
  let d := num / den
  let r := num % den
  if 2 * r < den then d
  else if 2 * r > den then d + 1
  else if d % 2 = 0 then d else d + 1

/-- Decimal digit tail of a natural number, most significant first; the
first argument is recursion fuel (any fuel above the digit count works). -/
def natDigitsFuel : Nat → Nat → PyStr
  | 0, _ => []
  | fuel + 1, n =>
    if n < 10 then [Char.ofNat (48 + n)]
    else natDigitsFuel fuel (n / 10) ++ [Char.ofNat (48 + n % 10)]

/-- Decimal digits of a natural number (Python `str(n)` for `n ≥ 0`). -/
def natToPyStr (n : Nat) : PyStr := natDigitsFuel (n + 1) n

/-- Python `f"{float(h):.1f}"` for an accepted hard-limit token `h` (digits
with at most one dot): the exact decimal value rounded half-to-even to one
fractional digit.  See the module docstring for the binary-float caveat. -/
def fmt1 (h : PyStr) : PyStr :=
  let p := splitFirstDot h
  let num := digitsToNat (p.1 ++ p.2)
  let den := 10 ^ p.2.length
  let q := roundHalfEven (num * 10) den
  natToPyStr (q / 10) ++ '.' :: natToPyStr (q % 10)

/-- The per-token shape check loop over hard-limit tokens
(`if not h.replace(".", "", 1).isdigit(): abort`). -/
def hardLimitError : List PyStr → Option String
  | [] => none
  | h :: hs =>
    if !isNumericTok (removeFirstDot h) then some "Hard limit is not a positive number"
    else hardLimitError hs

/-- The hard-limit validation block of `async_step_init` (lines 246-256),
as a function of the raw field and the key count: tokens are split on
commas (empties kept), stripped, shape-checked, reformatted to one decimal,
counted against the key count, and re-joined. -/
def validate_hard_limit (rawLimit : PyStr) (api_count : Nat) : PyStr × Option String :=
  let toks := (splitOnChar ',' rawLimit).map pyStrip
  match hardLimitError toks with
  | some e => ([], some e)
  | none =>
    let to_set := toks.map fmt1
    if to_set.length > api_count then ([], some "There are more hard limits entered than keys")
    else (joinSep ',' to_set, none)

/-- A scalar value stored in the options record: Python str, int, bool, or
float (floats are carried exactly, as rationals). -/
inductive OptVal where
  | s (v : PyStr)
  | i (v : Int)
  | b (v : Bool)
  | f (v : Rat)
deriving DecidableEq

/-- The options record: a Python dict from option name to scalar value,
modelled extensionally as a partial map. -/
abbrev Options := String → Option OptVal

/-- The empty dict. -/
def emptyOptions : Options := fun _ => none

/-- Dict item assignment `o[k] = v`. -/
def setOpt (o : Options) (k : String) (v : OptVal) : Options :=
  fun q => if q = k then some v else o q

/-- Build a dict literal from a key/value list, first pair first. -/
def ofPairs (ps : List (String × OptVal)) : Options :=
  ps.foldl (fun o p => setOpt o p.1 p.2) emptyOptions

/-- Modelled from the spec: the option-name constants are imported by
`config_flow.py` from the integration's `const` module and from
`homeassistant.const`, neither of which is part of the analysed source.
The spec's §3 data model names the fields; they are taken here as distinct
concrete strings. -/
def CONF_API_KEY : String := "api_key"

/-- Modelled from the spec: option-name constant (see `CONF_API_KEY`). -/
def API_QUOTA : String := "api_quota"

/-- Modelled from the spec: option-name constant (see `CONF_API_KEY`). -/
def AUTO_UPDATE : String := "auto_update"

/-- Modelled from the spec: option-name constant (see `CONF_API_KEY`). -/
def CUSTOM_HOUR_SENSOR : String := "customhoursensor"

/-- Modelled from the spec: option-name constant (see `CONF_API_KEY`). -/
def HARD_LIMIT_API : String := "hard_limit_api"

/-- Modelled from the spec: option-name constant (see `CONF_API_KEY`). -/
def KEY_ESTIMATE : String := "key_estimate"

/-- Modelled from the spec: option-name constant (see `CONF_API_KEY`). -/
def SITE_DAMP : String := "site_damp"

/-- Modelled from the spec: option-name constant (see `CONF_API_KEY`). -/
def CONFIG_DAMP : String := "config_damp"

/-- Modelled from the spec: option-name constant (see `CONF_API_KEY`). -/
def BRK_ESTIMATE : String := "attr_brk_estimate"

/-- Modelled from the spec: option-name constant (see `CONF_API_KEY`). -/
def BRK_ESTIMATE10 : String := "attr_brk_estimate10"

/-- Modelled from the spec: option-name constant (see `CONF_API_KEY`). -/
def BRK_ESTIMATE90 : String := "attr_brk_estimate90"

/-- Modelled from the spec: option-name constant (see `CONF_API_KEY`). -/
def BRK_HALFHOURLY : String := "attr_brk_halfhourly"

/-- Modelled from the spec: option-name constant (see `CONF_API_KEY`). -/
def BRK_HOURLY : String := "attr_brk_hourly"

/-- Modelled from the spec: option-name constant (see `CONF_API_KEY`). -/
def BRK_SITE : String := "attr_brk_site"

/-- Modelled from the spec: option-name constant (see `CONF_API_KEY`). -/
def BRK_SITE_DETAILED : String := "attr_brk_detailed"

/-- Python `f"damp{factor:02d}"`. -/
def dampKey (factor : Nat) : String :=
  "damp" ++ (if factor < 10 then "0" ++ toString factor else toString factor)

/-- The outcome of one step call, in terms of the Home Assistant primitives
the step invokes: `abort` is `async_abort(reason)`; `createEntry` is the
initial `async_create_entry` carrying a fresh options record; `updateEntry`
is `async_update_entry` persisting a record (followed by the terminal
`async_create_entry(data=None)`, which carries no options); `showDampen` is
the tail call into `async_step_dampen()` with the pending draft;
`showForm` re-displays the step's own form. -/
inductive FlowResult where
  | abort (reason : String)
  | createEntry (options : Options)
  | updateEntry (options : Options)
  | showDampen (draft : Options)
  | showForm

/-- The options record a result hands to the entry-storage collaborator,
if any: only `async_create_entry` with options and `async_update_entry`
persist anything. -/
def FlowResult.persisted : FlowResult → Option Options
  | .updateEntry o => some o
  | .createEntry o => some o
  | _ => none

/-- The fields of a `user_input` dict submitted to `async_step_init`, typed
as the form schema delivers them (strings for text fields, `int` for the
hour sensor, booleans for toggles; `site_damp` and `config_damp` are
`Option` because `user_input.get` is used and the form only ever includes
one of the two). -/
structure InitInput where
  api_key_field : PyStr
  api_quota_field : PyStr
  custom_hour_sensor : Int
  hard_limit_field : PyStr
  site_damp : Option Bool
  auto_update : Int
  key_estimate : PyStr
  brk_estimate : Bool
  brk_estimate10 : Bool
  brk_estimate90 : Bool
  brk_halfhourly : Bool
  brk_hourly : Bool
  brk_site : Bool
  brk_site_detailed : Bool
  config_damp : Option Bool

/-- The local `all_config_data` dict as it stands at the end of the
validated path of `async_step_init`: a full copy of the existing options
overwritten field by field (lines 229-273).  The dead stores that the
abort paths leave in the discarded local dict are not modelled. -/
def mergedRecord (opts : Options) (inp : InitInput) : Options :=
  let r1 := validate_api_key inp.api_key_field
  let acd := setOpt opts CONF_API_KEY (OptVal.s r1.1)
  let acd := setOpt acd API_QUOTA (OptVal.s (validate_api_limit inp.api_quota_field r1.2.1).1)
  let acd := setOpt acd CUSTOM_HOUR_SENSOR (OptVal.i inp.custom_hour_sensor)
  let acd := setOpt acd HARD_LIMIT_API (OptVal.s (validate_hard_limit inp.hard_limit_field r1.2.1).1)
  let acd := match inp.site_damp with
    | some b => setOpt acd SITE_DAMP (OptVal.b b)
    | none => acd
  let acd := setOpt acd AUTO_UPDATE (OptVal.i inp.auto_update)
  let acd := setOpt acd KEY_ESTIMATE (OptVal.s inp.key_estimate)
  let acd := setOpt acd BRK_ESTIMATE (OptVal.b inp.brk_estimate)
  let acd := setOpt acd BRK_ESTIMATE10 (OptVal.b inp.brk_estimate10)
  let acd := setOpt acd BRK_ESTIMATE90 (OptVal.b inp.brk_estimate90)
  let acd := setOpt acd BRK_HALFHOURLY (OptVal.b inp.brk_halfhourly)
  let acd := setOpt acd BRK_HOURLY (OptVal.b inp.brk_hourly)
  let acd := setOpt acd BRK_SITE (OptVal.b inp.brk_site)
  setOpt acd BRK_SITE_DETAILED (OptVal.b inp.brk_site_detailed)

/-- `SolcastSolarOptionFlowHandler.async_step_init` with a submitted
`user_input`, on existing options `opts`: the validation chain of
lines 227-282 with its aborts, and on success either the tail call into the
dampening step (when `user_input.get(CONFIG_DAMP)` is truthy) or the
persisting `async_update_entry`. -/
def async_step_init (opts : Options) (inp : InitInput) : FlowResult :=
  match (validate_api_key inp.api_key_field).2.2 with
  | some reason => .abort reason
  | none =>
    match (validate_api_limit inp.api_quota_field (validate_api_key inp.api_key_field).2.1).2 with
    | some reason => .abort reason
    | none =>
      if inp.custom_hour_sensor < 1 ∨ inp.custom_hour_sensor > 144 then
        .abort "Custom sensor not between 1 and 144"
      else
        match (validate_hard_limit inp.hard_limit_field (validate_api_key inp.api_key_field).2.1).2 with
        | some reason => .abort reason
        | none =>
          if inp.config_damp = some true then .showDampen (mergedRecord opts inp)
          else .updateEntry (mergedRecord opts inp)

/-- The first validation failure of `async_step_init`, in the order the
step checks them; `none` when the submission is fully validated. -/
def initValidationError (inp : InitInput) : Option String :=
  match (validate_api_key inp.api_key_field).2.2 with
  | some r => some r
  | none =>
    match (validate_api_limit inp.api_quota_field (validate_api_key inp.api_key_field).2.1).2 with
    | some r => some r
    | none =>
      if inp.custom_hour_sensor < 1 ∨ inp.custom_hour_sensor > 144 then
        some "Custom sensor not between 1 and 144"
      else (validate_hard_limit inp.hard_limit_field (validate_api_key inp.api_key_field).2.1).2

/-- The record built and persisted by the dampening sub-step on a
successful submission: the 24 hourly factors written in order, then the
site-level dampening flag forced to `False` (lines 349-351). -/
def dampenMerged (acd : Options) (u : Nat → Rat) : Options :=
  setOpt ((List.range 24).foldl (fun a factor => setOpt a (dampKey factor) (OptVal.f (u factor))) acd)
    SITE_DAMP (OptVal.b false)

/-- `SolcastSolarOptionFlowHandler.async_step_dampen`: `draft` is
`self._all_config_data` (the pending draft from the main step, `none` when
the dampening form is entered without one), `opts` the stored options, and
`inp` the 24 submitted factors keyed by hour (present only on submission).
The `extant` comprehension of line 345 reads all 24 `dampNN` slots of the
base record before anything else; a missing slot raises an uncaught
exception, modelled as the `none` result. -/
def async_step_dampen (opts : Options) (draft : Option Options) (inp : Option (Nat → Rat)) :
    Option FlowResult :=
  let acd := draft.getD opts
  if (List.range 24).all (fun factor => (acd (dampKey factor)).isSome) then
    match inp with
    | none => some .showForm
    | some u => some (.updateEntry (dampenMerged acd u))
  else none

/-- The fields of a `user_input` dict submitted to the initial
`async_step_user` (the auto-update selector value is modelled after the
`int(...)` conversion of line 159). -/
structure UserInput where
  api_key_field : PyStr
  api_quota_field : PyStr
  auto_update : Int

/-- The fresh options record built by `async_step_user` on success
(lines 156-173): validated key and quota fields, the chosen auto-update
mode, documented defaults for everything else, and the 24 dampening slots
at `1.0`. -/
def userDefaultOptions (api_key api_quota : PyStr) (auto_update : Int) : Options :=
  let options := ofPairs
    [(CONF_API_KEY, OptVal.s api_key), (API_QUOTA, OptVal.s api_quota),
     (AUTO_UPDATE, OptVal.i auto_update), (CUSTOM_HOUR_SENSOR, OptVal.i 1),
     (HARD_LIMIT_API, OptVal.s ("100.0".data)), (KEY_ESTIMATE, OptVal.s ("estimate".data)),
     (BRK_ESTIMATE, OptVal.b true), (BRK_ESTIMATE10, OptVal.b true),
     (BRK_ESTIMATE90, OptVal.b true), (BRK_SITE, OptVal.b true),
     (BRK_HALFHOURLY, OptVal.b true), (BRK_HOURLY, OptVal.b true),
     (BRK_SITE_DETAILED, OptVal.b false)]
  (List.range 24).foldl (fun o factor => setOpt o (dampKey factor) (OptVal.f 1)) options

/-- `SolcastSolarFlowHandler.async_step_user`: `has_current_entries` is the
truthiness of `self._async_current_entries()`; the single-instance guard of
lines 144-145 runs before anything else, then the two validators, then the
entry creation. -/
def async_step_user (has_current_entries : Bool) (inp : Option UserInput) : FlowResult :=
  if has_current_entries then .abort "single_instance_allowed"
  else
    match inp with
    | none => .showForm
    | some u =>
      match (validate_api_key u.api_key_field).2.2 with
      | some reason => .abort reason
      | none =>
        match (validate_api_limit u.api_quota_field (validate_api_key u.api_key_field).2.1).2 with
        | some reason => .abort reason
        | none =>
          .createEntry
            (userDefaultOptions (validate_api_key u.api_key_field).1
              (validate_api_limit u.api_quota_field (validate_api_key u.api_key_field).2.1).1
              u.auto_update)

/-- The first validation failure of `async_step_user` for a submission
(after the single-instance guard), in check order. -/
def userValidationError (u : UserInput) : Option String :=
  match (validate_api_key u.api_key_field).2.2 with
  | some r => some r
  | none => (validate_api_limit u.api_quota_field (validate_api_key u.api_key_field).2.1).2

/-! ### Helper lemmas -/

theorem init_result_eq (opts : Options) (inp : InitInput) :
    async_step_init opts inp =
      match initValidationError inp with
      | some r => FlowResult.abort r
      | none =>
        if inp.config_damp = some true then FlowResult.showDampen (mergedRecord opts inp)
        else FlowResult.updateEntry (mergedRecord opts inp) := by
  unfold async_step_init initValidationError
  cases h1 : (validate_api_key inp.api_key_field).2.2 with
  | some r => simp
  | none =>
    cases h2 : (validate_api_limit inp.api_quota_field
        (validate_api_key inp.api_key_field).2.1).2 with
    | some r => simp
    | none =>
      by_cases h3 : inp.custom_hour_sensor < 1 ∨ inp.custom_hour_sensor > 144
      · simp [h3]
      · cases h4 : (validate_hard_limit inp.hard_limit_field
            (validate_api_key inp.api_key_field).2.1).2 <;> simp [h3, h4]

theorem user_result_eq (u : UserInput) :
    async_step_user false (some u) =
      match userValidationError u with
      | some r => FlowResult.abort r
      | none =>
        FlowResult.createEntry
          (userDefaultOptions (validate_api_key u.api_key_field).1
            (validate_api_limit u.api_quota_field (validate_api_key u.api_key_field).2.1).1
            u.auto_update) := by
  unfold async_step_user userValidationError
  cases h1 : (validate_api_key u.api_key_field).2.2 with
  | some r => simp [h1]
  | none =>
    cases h2 : (validate_api_limit u.api_quota_field
        (validate_api_key u.api_key_field).2.1).2 <;> simp [h1, h2]

theorem hardLimitError_reason (toks : List PyStr) (r : String)
    (h : hardLimitError toks = some r) : r = "Hard limit is not a positive number" := by
  induction toks with
  | nil => simp [hardLimitError] at h
  | cons t ts ih =>
    rw [hardLimitError] at h
    split at h
    · exact (Option.some.injEq .. ▸ h).symm
    · exact ih h

theorem validate_hard_limit_reason (x : PyStr) (c : Nat) (r : String)
    (h : (validate_hard_limit x c).2 = some r) :
    r = "Hard limit is not a positive number" ∨
      r = "There are more hard limits entered than keys" := by
  simp only [validate_hard_limit] at h
  cases he : hardLimitError ((splitOnChar ',' x).map pyStrip) with
  | some e =>
    rw [he] at h
    simp at h
    exact Or.inl (h ▸ hardLimitError_reason _ _ he)
  | none =>
    rw [he] at h
    simp at h
    split at h
    · simp at h; exact Or.inr h.symm
    · simp at h

/-! ### Claim C10 -/

/-- C10: when at least one configuration entry for the integration already
exists, `async_step_user` aborts with reason `single_instance_allowed` for
every input (including `None`), before any validation, and hands no options
record to the entry store. -/
theorem c10_single_instance_guard (inp : Option UserInput) :
    async_step_user true inp = FlowResult.abort "single_instance_allowed" ∧
      (async_step_user true inp).persisted = none :=
  ⟨rfl, rfl⟩

/-! ### Claim C1 -/

/-- C1: every submission to the main options step or to the initial setup
step that fails a validation check makes the step abort with that
validator's specific reason string, and the abort result carries no options
record, so nothing is handed to the entry-storage collaborator and the
persisted options stay unchanged. -/
theorem c1_validation_failure_aborts_without_persist
    (opts : Options) (inp : InitInput) (u : UserInput) :
    (∀ r, initValidationError inp = some r →
        async_step_init opts inp = FlowResult.abort r ∧
          (async_step_init opts inp).persisted = none) ∧
    (∀ r, userValidationError u = some r →
        async_step_user false (some u) = FlowResult.abort r ∧
          (async_step_user false (some u)).persisted = none) := by
  constructor
  · intro r h
    rw [init_result_eq opts inp, h]
    exact ⟨rfl, rfl⟩
  · intro r h
    rw [user_result_eq u, h]
    exact ⟨rfl, rfl⟩

/-- A fully valid main-step submission used in witnesses. -/
def sampleInit : InitInput :=
  ⟨"key1,key2".data, "10,20".data, 24, "5,7.25".data, none, 1, "estimate".data,
    true, true, true, true, true, true, false, some false⟩

/-- A main-step submission whose API key field has the site-ID shape. -/
def siteIdInit : InitInput :=
  ⟨"aaaa-bbbb-cccc-dddd".data, "10".data, 24, "100.0".data, none, 1, "estimate".data,
    true, true, true, true, true, true, false, some false⟩

/-- An initial-setup submission with a non-numeric quota. -/
def badQuotaUser : UserInput := ⟨"key1".data, "ten".data, 1⟩

/-- Witness for C1: a site-ID-shaped key aborts the main step and a
non-numeric quota aborts the setup step, in both cases with the specific
reason and with nothing persisted. -/
theorem c1_validation_failure_aborts_without_persist_witness :
    initValidationError siteIdInit = some "API key looks like a site ID" ∧
    userValidationError badQuotaUser = some "API limit is not a number" ∧
    async_step_init emptyOptions siteIdInit =
      FlowResult.abort "API key looks like a site ID" ∧
    (async_step_init emptyOptions siteIdInit).persisted = none ∧
    async_step_user false (some badQuotaUser) =
      FlowResult.abort "API limit is not a number" ∧
    (async_step_user false (some badQuotaUser)).persisted = none := by
  have h1 : initValidationError siteIdInit = some "API key looks like a site ID" := by decide
  have h2 : userValidationError badQuotaUser = some "API limit is not a number" := by decide
  have a := c1_validation_failure_aborts_without_persist emptyOptions siteIdInit badQuotaUser
  exact ⟨h1, h2, (a.1 _ h1).1, (a.1 _ h1).2, (a.2 _ h2).1, (a.2 _ h2).2⟩

/-! ### Claim C7 -/

/-- C7: the transition from the main options step to the dampening sub-step
is taken only when the submission carries the explicit boolean request flag
(`CONFIG_DAMP` truthy); every other fully validated submission goes
directly to the persisting `async_update_entry` with the merged record,
without showing the dampening step. -/
theorem c7_dampen_only_on_request (opts : Options) (inp : InitInput) :
    (∀ d, async_step_init opts inp = FlowResult.showDampen d →
      inp.config_damp = some true) ∧
    (initValidationError inp = none → ¬inp.config_damp = some true →
      async_step_init opts inp = FlowResult.updateEntry (mergedRecord opts inp)) := by
  constructor
  · intro d h
    rw [init_result_eq opts inp] at h
    cases he : initValidationError inp with
    | some r => rw [he] at h; exact absurd h (by simp)
    | none =>
      rw [he] at h
      by_cases hc : inp.config_damp = some true
      · exact hc
      · rw [if_neg hc] at h; exact absurd h (by simp)
  · intro he hc
    rw [init_result_eq opts inp, he, if_neg hc]

/-- The valid submission of `sampleInit` with the dampening request flag
set. -/
def dampInit : InitInput :=
  ⟨"key1,key2".data, "10,20".data, 24, "5,7.25".data, none, 1, "estimate".data,
    true, true, true, true, true, true, false, some true⟩

/-- Witness for C7: a valid submission without the flag persists directly,
and from a concrete transition into the dampening step the flag is
recovered. -/
theorem c7_dampen_only_on_request_witness :
    initValidationError sampleInit = none ∧
    ¬sampleInit.config_damp = some true ∧
    async_step_init emptyOptions sampleInit =
      FlowResult.updateEntry (mergedRecord emptyOptions sampleInit) ∧
    dampInit.config_damp = some true := by
  have he : initValidationError sampleInit = none := by decide
  have hc : ¬sampleInit.config_damp = some true := by decide
  have hd : async_step_init emptyOptions dampInit =
      FlowResult.showDampen (mergedRecord emptyOptions dampInit) := by
    rw [init_result_eq emptyOptions dampInit, show initValidationError dampInit = none from by decide]
    rfl
  exact ⟨he, hc, (c7_dampen_only_on_request emptyOptions sampleInit).2 he hc,
    (c7_dampen_only_on_request emptyOptions dampInit).1 _ hd⟩

/-! ### Claim C8 -/

theorem mergedRecord_hour (opts : Options) (inp : InitInput) :
    mergedRecord opts inp CUSTOM_HOUR_SENSOR = some (OptVal.i inp.custom_hour_sensor) := by
  cases hsd : inp.site_damp <;>
    simp [mergedRecord, setOpt, hsd,
      show ¬CUSTOM_HOUR_SENSOR = BRK_SITE_DETAILED from by decide,
      show ¬CUSTOM_HOUR_SENSOR = BRK_SITE from by decide,
      show ¬CUSTOM_HOUR_SENSOR = BRK_HOURLY from by decide,
      show ¬CUSTOM_HOUR_SENSOR = BRK_HALFHOURLY from by decide,
      show ¬CUSTOM_HOUR_SENSOR = BRK_ESTIMATE90 from by decide,
      show ¬CUSTOM_HOUR_SENSOR = BRK_ESTIMATE10 from by decide,
      show ¬CUSTOM_HOUR_SENSOR = BRK_ESTIMATE from by decide,
      show ¬CUSTOM_HOUR_SENSOR = KEY_ESTIMATE from by decide,
      show ¬CUSTOM_HOUR_SENSOR = AUTO_UPDATE from by decide,
      show ¬CUSTOM_HOUR_SENSOR = SITE_DAMP from by decide,
      show ¬CUSTOM_HOUR_SENSOR = HARD_LIMIT_API from by decide]

/-- C8: with the key and quota fields validated, the main options step
aborts with the out-of-range reason exactly when the submitted custom-hour
sensor value is outside `1..144`; an in-range value is passed through into
the merged record's `CUSTOM_HOUR_SENSOR` slot. -/
theorem c8_hour_sensor_range (opts : Options) (inp : InitInput)
    (h1 : (validate_api_key inp.api_key_field).2.2 = none)
    (h2 : (validate_api_limit inp.api_quota_field
        (validate_api_key inp.api_key_field).2.1).2 = none) :
    (async_step_init opts inp = FlowResult.abort "Custom sensor not between 1 and 144" ↔
      (inp.custom_hour_sensor < 1 ∨ 144 < inp.custom_hour_sensor)) ∧
    mergedRecord opts inp CUSTOM_HOUR_SENSOR = some (OptVal.i inp.custom_hour_sensor) := by
  refine ⟨?_, mergedRecord_hour opts inp⟩
  have hmain : async_step_init opts inp =
      if inp.custom_hour_sensor < 1 ∨ inp.custom_hour_sensor > 144 then
        FlowResult.abort "Custom sensor not between 1 and 144"
      else
        match (validate_hard_limit inp.hard_limit_field
            (validate_api_key inp.api_key_field).2.1).2 with
        | some reason => FlowResult.abort reason
        | none =>
          if inp.config_damp = some true then FlowResult.showDampen (mergedRecord opts inp)
          else FlowResult.updateEntry (mergedRecord opts inp) := by
    unfold async_step_init
    simp only [h1, h2]
  rw [hmain]
  by_cases hr : inp.custom_hour_sensor < 1 ∨ inp.custom_hour_sensor > 144
  · rw [if_pos hr]
    exact iff_of_true rfl hr
  · rw [if_neg hr]
    refine iff_of_false ?_ hr
    cases hh : (validate_hard_limit inp.hard_limit_field
        (validate_api_key inp.api_key_field).2.1).2 with
    | some reason =>
      intro hcon
      have : reason = "Custom sensor not between 1 and 144" := by
        simpa using hcon
      rcases validate_hard_limit_reason _ _ _ hh with h | h <;> simp [h] at this
    | none =>
      by_cases hc : inp.config_damp = some true <;> simp [hc]

/-- A valid main-step submission with a chosen custom-hour-sensor value. -/
def hourInit (n : Int) : InitInput :=
  ⟨"key1,key2".data, "10,20".data, n, "100.0".data, none, 1, "estimate".data,
    true, true, true, true, true, true, false, some false⟩

/-- Witness for C8: 0 and 145 are rejected with the out-of-range reason,
the boundary values 1 and 144 are not, and 144 lands in the merged
record. -/
theorem c8_hour_sensor_range_witness :
    async_step_init emptyOptions (hourInit 0) =
      FlowResult.abort "Custom sensor not between 1 and 144" ∧
    async_step_init emptyOptions (hourInit 145) =
      FlowResult.abort "Custom sensor not between 1 and 144" ∧
    ¬async_step_init emptyOptions (hourInit 1) =
      FlowResult.abort "Custom sensor not between 1 and 144" ∧
    ¬async_step_init emptyOptions (hourInit 144) =
      FlowResult.abort "Custom sensor not between 1 and 144" ∧
    mergedRecord emptyOptions (hourInit 144) CUSTOM_HOUR_SENSOR = some (OptVal.i 144) := by
  have a0 := c8_hour_sensor_range emptyOptions (hourInit 0) (by decide) (by decide)
  have a145 := c8_hour_sensor_range emptyOptions (hourInit 145) (by decide) (by decide)
  have a1 := c8_hour_sensor_range emptyOptions (hourInit 1) (by decide) (by decide)
  have a144 := c8_hour_sensor_range emptyOptions (hourInit 144) (by decide) (by decide)
  refine ⟨a0.1.mpr (by decide), a145.1.mpr (by decide), ?_, ?_, a144.2⟩
  · intro hc
    exact absurd (a1.1.mp hc) (by decide)
  · intro hc
    exact absurd (a144.1.mp hc) (by decide)

/-! ### Claim C2 -/

/-- The option names the validated path of `async_step_init` writes into
its copy of the existing record (`SITE_DAMP` only when the submission
carries it). -/
def writtenKeys (inp : InitInput) : List String :=
  [CONF_API_KEY, API_QUOTA, CUSTOM_HOUR_SENSOR, HARD_LIMIT_API] ++
    (match inp.site_damp with | some _ => [SITE_DAMP] | none => []) ++
    [AUTO_UPDATE, KEY_ESTIMATE, BRK_ESTIMATE, BRK_ESTIMATE10, BRK_ESTIMATE90,
     BRK_HALFHOURLY, BRK_HOURLY, BRK_SITE, BRK_SITE_DETAILED]

/-- Every option name the step can ever write. -/
def allWrittenKeys : List String :=
  [CONF_API_KEY, API_QUOTA, CUSTOM_HOUR_SENSOR, HARD_LIMIT_API, SITE_DAMP,
   AUTO_UPDATE, KEY_ESTIMATE, BRK_ESTIMATE, BRK_ESTIMATE10, BRK_ESTIMATE90,
   BRK_HALFHOURLY, BRK_HOURLY, BRK_SITE, BRK_SITE_DETAILED]

theorem writtenKeys_subset (inp : InitInput) :
    ∀ k ∈ writtenKeys inp, k ∈ allWrittenKeys := by
  intro k hk
  cases hsd : inp.site_damp <;>
    · rw [writtenKeys, hsd] at hk
      simp only [allWrittenKeys, List.mem_append, List.mem_cons, List.not_mem_nil] at hk ⊢
      tauto

theorem dampKey_not_written : ∀ i, i < 24 → dampKey i ∉ allWrittenKeys := by decide

theorem setOpt_ne (o : Options) (k0 k : String) (v : OptVal) (h : ¬k = k0) :
    setOpt o k0 v k = o k := if_neg h

theorem setOpt_self (o : Options) (k : String) (v : OptVal) :
    setOpt o k v k = some v := if_pos rfl

theorem setOpt_isSome (o : Options) (k0 k : String) (v : OptVal) (h : (o k).isSome) :
    ((setOpt o k0 v) k).isSome := by
  unfold setOpt
  split
  · rfl
  · exact h

theorem mergedRecord_frame (opts : Options) (inp : InitInput) :
    ∀ k, k ∉ writtenKeys inp → mergedRecord opts inp k = opts k := by
  intro k hk
  unfold mergedRecord
  cases hsd : inp.site_damp with
  | none =>
    have hw : writtenKeys inp = [CONF_API_KEY, API_QUOTA, CUSTOM_HOUR_SENSOR, HARD_LIMIT_API,
        AUTO_UPDATE, KEY_ESTIMATE, BRK_ESTIMATE, BRK_ESTIMATE10, BRK_ESTIMATE90,
        BRK_HALFHOURLY, BRK_HOURLY, BRK_SITE, BRK_SITE_DETAILED] := by
      rw [writtenKeys, hsd]; rfl
    rw [hw] at hk
    simp only [List.mem_cons, List.not_mem_nil, or_false, not_or] at hk
    obtain ⟨n1, n2, n3, n4, n5, n6, n7, n8, n9, n10, n11, n12, n13⟩ := hk
    dsimp only
    rw [setOpt_ne _ _ _ _ n13, setOpt_ne _ _ _ _ n12, setOpt_ne _ _ _ _ n11,
      setOpt_ne _ _ _ _ n10, setOpt_ne _ _ _ _ n9, setOpt_ne _ _ _ _ n8,
      setOpt_ne _ _ _ _ n7, setOpt_ne _ _ _ _ n6, setOpt_ne _ _ _ _ n5,
      setOpt_ne _ _ _ _ n4, setOpt_ne _ _ _ _ n3, setOpt_ne _ _ _ _ n2,
      setOpt_ne _ _ _ _ n1]
  | some b =>
    have hw : writtenKeys inp = [CONF_API_KEY, API_QUOTA, CUSTOM_HOUR_SENSOR, HARD_LIMIT_API,
        SITE_DAMP, AUTO_UPDATE, KEY_ESTIMATE, BRK_ESTIMATE, BRK_ESTIMATE10, BRK_ESTIMATE90,
        BRK_HALFHOURLY, BRK_HOURLY, BRK_SITE, BRK_SITE_DETAILED] := by
      rw [writtenKeys, hsd]; rfl
    rw [hw] at hk
    simp only [List.mem_cons, List.not_mem_nil, or_false, not_or] at hk
    obtain ⟨n1, n2, n3, n4, ns, n5, n6, n7, n8, n9, n10, n11, n12, n13⟩ := hk
    dsimp only
    rw [setOpt_ne _ _ _ _ n13, setOpt_ne _ _ _ _ n12, setOpt_ne _ _ _ _ n11,
      setOpt_ne _ _ _ _ n10, setOpt_ne _ _ _ _ n9, setOpt_ne _ _ _ _ n8,
      setOpt_ne _ _ _ _ n7, setOpt_ne _ _ _ _ n6, setOpt_ne _ _ _ _ n5,
      setOpt_ne _ _ _ _ ns, setOpt_ne _ _ _ _ n4, setOpt_ne _ _ _ _ n3,
      setOpt_ne _ _ _ _ n2, setOpt_ne _ _ _ _ n1]

theorem mergedRecord_isSome (opts : Options) (inp : InitInput) :
    ∀ k, (opts k).isSome → (mergedRecord opts inp k).isSome := by
  intro k h
  unfold mergedRecord
  cases hsd : inp.site_damp <;>
    · dsimp only
      repeat apply setOpt_isSome
      exact h

/-- C2: the record the main options step builds starts from a full copy of
the existing options and overwrites only the validated fields: every key
outside the written set keeps its existing value (in particular all 24
`dampNN` slots when the dampening sub-step is not taken), no key is
deleted, and on a fully validated direct submission exactly this merged
record is persisted. -/
theorem c2_merge_preserves_unwritten_keys (opts : Options) (inp : InitInput) :
    (initValidationError inp = none → ¬inp.config_damp = some true →
      async_step_init opts inp = FlowResult.updateEntry (mergedRecord opts inp)) ∧
    (∀ k, k ∉ writtenKeys inp → mergedRecord opts inp k = opts k) ∧
    (∀ k, (opts k).isSome → (mergedRecord opts inp k).isSome) ∧
    (∀ i, i < 24 → mergedRecord opts inp (dampKey i) = opts (dampKey i)) := by
  refine ⟨?_, mergedRecord_frame opts inp, mergedRecord_isSome opts inp, ?_⟩
  · intro he hc
    rw [init_result_eq opts inp, he, if_neg hc]
  · intro i hi
    exact mergedRecord_frame opts inp _
      (fun hmem => dampKey_not_written i hi (writtenKeys_subset inp _ hmem))

/-- A concrete stored options record used in witnesses: the first-setup
defaults plus an unrelated extra key. -/
def sampleOpts : Options :=
  setOpt (userDefaultOptions ("key1".data) ("10".data) 1) "extra_key" (OptVal.i 7)

/-- Witness for C2: on a concrete record holding a dampening slot and an
unrelated key, a valid submission persists the merged record and both
untouched keys survive unchanged. -/
theorem c2_merge_preserves_unwritten_keys_witness :
    initValidationError sampleInit = none ∧
    ¬sampleInit.config_damp = some true ∧
    ¬"extra_key" ∈ writtenKeys sampleInit ∧
    (sampleOpts "extra_key").isSome = true ∧
    async_step_init sampleOpts sampleInit =
      FlowResult.updateEntry (mergedRecord sampleOpts sampleInit) ∧
    mergedRecord sampleOpts sampleInit "extra_key" = sampleOpts "extra_key" ∧
    (mergedRecord sampleOpts sampleInit "extra_key").isSome = true ∧
    mergedRecord sampleOpts sampleInit (dampKey 3) = sampleOpts (dampKey 3) := by
  have a := c2_merge_preserves_unwritten_keys sampleOpts sampleInit
  exact ⟨by decide, by decide, by decide, by decide,
    a.1 (by decide) (by decide),
    a.2.1 _ (by decide),
    a.2.2.1 _ (by decide),
    a.2.2.2 3 (by decide)⟩

/-! ### Claim C4 -/

theorem quotaError_none (qs : List PyStr)
    (h : ∀ q ∈ qs, isNumericTok q = true ∧ 1 ≤ digitsToNat q) : quotaError qs = none := by
  induction qs with
  | nil => rfl
  | cons q qs ih =>
    obtain ⟨h1, h2⟩ := h q (List.mem_cons_self ..)
    rw [quotaError, h1]
    simp only [Bool.not_true, Bool.false_eq_true, if_false]
    rw [if_neg (by omega)]
    exact ih fun p hp => h p (List.mem_cons_of_mem _ hp)

theorem quotaError_not_number (pre : List PyStr) (q : PyStr) (post : List PyStr)
    (hpre : ∀ p ∈ pre, isNumericTok p = true ∧ 1 ≤ digitsToNat p)
    (hq : isNumericTok q = false) :
    quotaError (pre ++ q :: post) = some "API limit is not a number" := by
  induction pre with
  | nil => rw [List.nil_append, quotaError, hq]; rfl
  | cons p pre ih =>
    obtain ⟨h1, h2⟩ := hpre p (List.mem_cons_self ..)
    rw [List.cons_append, quotaError, h1]
    simp only [Bool.not_true, Bool.false_eq_true, if_false]
    rw [if_neg (by omega)]
    exact ih fun t ht => hpre t (List.mem_cons_of_mem _ ht)

theorem quotaError_below_min (pre : List PyStr) (q : PyStr) (post : List PyStr)
    (hpre : ∀ p ∈ pre, isNumericTok p = true ∧ 1 ≤ digitsToNat p)
    (hq1 : isNumericTok q = true) (hq2 : digitsToNat q = 0) :
    quotaError (pre ++ q :: post) = some "API limit must be one or greater" := by
  induction pre with
  | nil =>
    rw [List.nil_append, quotaError, hq1]
    simp only [Bool.not_true, Bool.false_eq_true, if_false]
    rw [if_pos (by omega)]
  | cons p pre ih =>
    obtain ⟨h1, h2⟩ := hpre p (List.mem_cons_self ..)
    rw [List.cons_append, quotaError, h1]
    simp only [Bool.not_true, Bool.false_eq_true, if_false]
    rw [if_neg (by omega)]
    exact ih fun t ht => hpre t (List.mem_cons_of_mem _ ht)

/-- C4: quota validation checks each token in order — a non-numeric token
fails with the "not a number" reason and an all-zero token with the "below
minimum" reason; with all tokens valid, more tokens than keys fails with
the "too many values" reason while a count at or below the key count
succeeds with the re-joined tokens (fewer tokens than keys is allowed). -/
theorem c4_quota_validation (raw : PyStr) (count : Nat) :
    (∀ pre q post, splitField raw = pre ++ q :: post →
      (∀ p ∈ pre, isNumericTok p = true ∧ 1 ≤ digitsToNat p) →
      isNumericTok q = false →
      validate_api_limit raw count = ([], some "API limit is not a number")) ∧
    (∀ pre q post, splitField raw = pre ++ q :: post →
      (∀ p ∈ pre, isNumericTok p = true ∧ 1 ≤ digitsToNat p) →
      isNumericTok q = true → digitsToNat q = 0 →
      validate_api_limit raw count = ([], some "API limit must be one or greater")) ∧
    ((∀ p ∈ splitField raw, isNumericTok p = true ∧ 1 ≤ digitsToNat p) →
      count < (splitField raw).length →
      validate_api_limit raw count =
        ([], some "There are more API limit counts entered than keys")) ∧
    ((∀ p ∈ splitField raw, isNumericTok p = true ∧ 1 ≤ digitsToNat p) →
      (splitField raw).length ≤ count →
      validate_api_limit raw count = (joinSep ',' (splitField raw), none)) := by
  refine ⟨?_, ?_, ?_, ?_⟩
  · intro pre q post hsplit hpre hq
    simp only [validate_api_limit]
    rw [hsplit, quotaError_not_number pre q post hpre hq]
  · intro pre q post hsplit hpre hq1 hq2
    simp only [validate_api_limit]
    rw [hsplit, quotaError_below_min pre q post hpre hq1 hq2]
  · intro hval hcount
    simp only [validate_api_limit]
    rw [quotaError_none _ hval]
    rw [if_pos hcount]
  · intro hval hcount
    simp only [validate_api_limit]
    rw [quotaError_none _ hval]
    rw [if_neg (by omega)]

/-- Witness for C4: a non-numeric token, a zero token, a three-token list
against two keys, and a two-token list against two keys, each with the
stated outcome. -/
theorem c4_quota_validation_witness :
    validate_api_limit ("ten".data) 2 = ([], some "API limit is not a number") ∧
    validate_api_limit ("0".data) 2 = ([], some "API limit must be one or greater") ∧
    validate_api_limit ("10,20,30".data) 2 =
      ([], some "There are more API limit counts entered than keys") ∧
    validate_api_limit ("10,20".data) 2 = (joinSep ',' (splitField ("10,20".data)), none) := by
  have a1 := (c4_quota_validation ("ten".data) 2).1
  have a2 := (c4_quota_validation ("0".data) 2).2.1
  have a3 := (c4_quota_validation ("10,20,30".data) 2).2.2.1
  have a4 := (c4_quota_validation ("10,20".data) 2).2.2.2
  exact ⟨a1 [] ("ten".data) [] (by decide) (by simp) (by decide),
    a2 [] ("0".data) [] (by decide) (by simp) (by decide) (by decide),
    a3 (by decide) (by decide),
    a4 (by decide) (by decide)⟩

/-! ### Claim C5 -/

theorem forall_digit_iff (t : PyStr) :
    (∀ c ∈ t, c.isDigit = true) ↔
      ((∀ c ∈ t, c.isDigit = true ∨ c = '.') ∧ t.count '.' = 0) := by
  constructor
  · intro h
    refine ⟨fun c hc => Or.inl (h c hc), ?_⟩
    rw [List.count_eq_zero]
    intro hdot
    exact absurd (h _ hdot) (by decide)
  · rintro ⟨h1, h2⟩ c hc
    rcases h1 c hc with hd | hd
    · exact hd
    · subst hd
      exact absurd hc (List.count_eq_zero.mp h2)

theorem removeFirstDot_all_digit (t : PyStr) :
    (∀ c ∈ removeFirstDot t, c.isDigit = true) ↔
      ((∀ c ∈ t, c.isDigit = true ∨ c = '.') ∧ t.count '.' ≤ 1) := by
  induction t with
  | nil => simp [removeFirstDot]
  | cons c t ih =>
    by_cases hc : c = '.'
    · subst hc
      rw [show removeFirstDot ('.' :: t) = t from by rw [removeFirstDot]; simp]
      simp only [List.forall_mem_cons, List.count_cons, beq_self_eq_true, if_true, if_pos]
      constructor
      · intro h
        have h0 := (forall_digit_iff t).mp h
        exact ⟨⟨Or.inr trivial, h0.1⟩, by omega⟩
      · rintro ⟨⟨_, h1⟩, h2⟩
        exact (forall_digit_iff t).mpr ⟨h1, by omega⟩
    · have hc2 : (c == '.') = false := beq_eq_false_iff_ne.mpr hc
      rw [show removeFirstDot (c :: t) = c :: removeFirstDot t from by
        rw [removeFirstDot]; rw [if_neg hc]]
      simp only [List.forall_mem_cons, List.count_cons, hc2, if_false, Nat.add_zero,
        Bool.false_eq_true]
      constructor
      · rintro ⟨hcd, hall⟩
        have h2 := ih.mp hall
        exact ⟨⟨Or.inl hcd, h2.1⟩, h2.2⟩
      · rintro ⟨⟨hcd, h1⟩, h2⟩
        rcases hcd with hcd | hcd
        · exact ⟨hcd, ih.mpr ⟨h1, h2⟩⟩
        · exact absurd hcd hc

theorem decimal_shape_iff (t : PyStr) :
    isNumericTok (removeFirstDot t) = true ↔
      ((∀ c ∈ t, c.isDigit = true ∨ c = '.') ∧ t.count '.' ≤ 1 ∧
        ∃ c ∈ t, c.isDigit = true) := by
  have hnum : ∀ s : PyStr, isNumericTok s = true ↔ (s ≠ [] ∧ ∀ c ∈ s, c.isDigit = true) := by
    intro s
    cases s <;> simp [isNumericTok, List.all_eq_true]
  cases t with
  | nil => simp [removeFirstDot, isNumericTok]
  | cons c t =>
    by_cases hc : c = '.'
    · subst hc
      rw [show removeFirstDot ('.' :: t) = t from by rw [removeFirstDot]; simp]
      rw [hnum]
      simp only [List.forall_mem_cons, List.count_cons, beq_self_eq_true, if_true, if_pos,
        List.exists_mem_cons_iff, show ('.'.isDigit = true) = False from by simp]
      constructor
      · rintro ⟨hne, hall⟩
        have h0 := (forall_digit_iff t).mp hall
        cases t with
        | nil => exact absurd rfl hne
        | cons x xs =>
          exact ⟨⟨Or.inr trivial, h0.1⟩, by omega,
            Or.inr ⟨x, List.mem_cons_self .., hall x (List.mem_cons_self ..)⟩⟩
      · rintro ⟨⟨_, h1⟩, h2, h3⟩
        rcases h3 with h3 | ⟨x, hx, hdx⟩
        · exact absurd h3 (by simp)
        · exact ⟨List.ne_nil_of_mem hx, (forall_digit_iff t).mpr ⟨h1, by omega⟩⟩
    · have hc2 : (c == '.') = false := beq_eq_false_iff_ne.mpr hc
      rw [show removeFirstDot (c :: t) = c :: removeFirstDot t from by
        rw [removeFirstDot]; rw [if_neg hc]]
      rw [hnum]
      simp only [List.forall_mem_cons, List.count_cons, hc2, if_false, Nat.add_zero,
        List.exists_mem_cons_iff, ne_eq, List.cons_ne_nil, not_false_iff, true_and,
        Bool.false_eq_true]
      constructor
      · rintro ⟨hcd, hall⟩
        have h2 := (removeFirstDot_all_digit t).mp hall
        exact ⟨⟨Or.inl hcd, h2.1⟩, h2.2, Or.inl hcd⟩
      · rintro ⟨⟨hcd, h1⟩, h2, h3⟩
        rcases hcd with hcd | hcd
        · exact ⟨hcd, (removeFirstDot_all_digit t).mpr ⟨h1, h2⟩⟩
        · exact absurd hcd hc

theorem digitChar_isDigit : ∀ r, r < 10 → (Char.ofNat (48 + r)).isDigit = true := by decide

theorem natDigitsFuel_digits (fuel : Nat) :
    ∀ n, ∀ c ∈ natDigitsFuel fuel n, c.isDigit = true := by
  induction fuel with
  | zero => intro n c hc; cases hc
  | succ fuel ih =>
    intro n c hc
    rw [natDigitsFuel] at hc
    split at hc
    · simp only [List.mem_singleton] at hc
      subst hc
      exact digitChar_isDigit n (by omega)
    · rcases List.mem_append.mp hc with h | h
      · exact ih _ _ h
      · simp only [List.mem_singleton] at h
        subst h
        exact digitChar_isDigit (n % 10) (Nat.mod_lt _ (by omega))

theorem natDigitsFuel_ne_nil (fuel n : Nat) (h : 0 < fuel) : natDigitsFuel fuel n ≠ [] := by
  cases fuel with
  | zero => omega
  | succ fuel =>
    rw [natDigitsFuel]
    split
    · simp
    · simp

theorem natToPyStr_single (n : Nat) (h : n < 10) : natToPyStr n = [Char.ofNat (48 + n)] := by
  rw [natToPyStr, natDigitsFuel, if_pos h]

theorem fmt1_shape (t : PyStr) :
    ∃ a d, fmt1 t = a ++ '.' :: [d] ∧ a ≠ [] ∧
      (∀ c ∈ a, c.isDigit = true) ∧ d.isDigit = true := by
  rw [fmt1]
  refine ⟨natToPyStr (roundHalfEven
      (digitsToNat ((splitFirstDot t).1 ++ (splitFirstDot t).2) * 10)
      (10 ^ (splitFirstDot t).2.length) / 10),
    Char.ofNat (48 + roundHalfEven
      (digitsToNat ((splitFirstDot t).1 ++ (splitFirstDot t).2) * 10)
      (10 ^ (splitFirstDot t).2.length) % 10), ?_, ?_, ?_, ?_⟩
  · rw [natToPyStr_single _ (Nat.mod_lt _ (by omega))]
  · exact natDigitsFuel_ne_nil _ _ (by omega)
  · exact fun c hc => natDigitsFuel_digits _ _ c hc
  · exact digitChar_isDigit _ (Nat.mod_lt _ (by omega))

theorem hardLimitError_none (ts : List PyStr)
    (h : ∀ t ∈ ts, isNumericTok (removeFirstDot t) = true) : hardLimitError ts = none := by
  induction ts with
  | nil => rfl
  | cons t ts ih =>
    rw [hardLimitError, h t (List.mem_cons_self ..)]
    simp only [Bool.not_true, Bool.false_eq_true, if_false]
    exact ih fun p hp => h p (List.mem_cons_of_mem _ hp)

theorem hardLimitError_bad (pre : List PyStr) (t : PyStr) (post : List PyStr)
    (hpre : ∀ p ∈ pre, isNumericTok (removeFirstDot p) = true)
    (ht : isNumericTok (removeFirstDot t) = false) :
    hardLimitError (pre ++ t :: post) = some "Hard limit is not a positive number" := by
  induction pre with
  | nil => rw [List.nil_append, hardLimitError, ht]; rfl
  | cons p pre ih =>
    rw [List.cons_append, hardLimitError, hpre p (List.mem_cons_self ..)]
    simp only [Bool.not_true, Bool.false_eq_true, if_false]
    exact ih fun q hq => hpre q (List.mem_cons_of_mem _ hq)

/-- C5: the main step's hard-limit validation accepts a token exactly when
it is a non-negative decimal numeral with at most one decimal point,
rejects a bad token with the non-numeric reason, rejects more tokens than
keys with the too-many-values reason, succeeds otherwise with every token
reformatted to exactly one fractional digit, and in particular normalizes
`"5,7.25"` against two keys to exactly `"5.0,7.2"`. -/
theorem c5_hard_limit_validation (raw : PyStr) (count : Nat) :
    (∀ t, isNumericTok (removeFirstDot t) = true ↔
      ((∀ c ∈ t, c.isDigit = true ∨ c = '.') ∧ t.count '.' ≤ 1 ∧
        ∃ c ∈ t, c.isDigit = true)) ∧
    (∀ pre t post, (splitOnChar ',' raw).map pyStrip = pre ++ t :: post →
      (∀ p ∈ pre, isNumericTok (removeFirstDot p) = true) →
      isNumericTok (removeFirstDot t) = false →
      validate_hard_limit raw count = ([], some "Hard limit is not a positive number")) ∧
    ((∀ t ∈ (splitOnChar ',' raw).map pyStrip, isNumericTok (removeFirstDot t) = true) →
      count < ((splitOnChar ',' raw).map pyStrip).length →
      validate_hard_limit raw count = ([], some "There are more hard limits entered than keys")) ∧
    ((∀ t ∈ (splitOnChar ',' raw).map pyStrip, isNumericTok (removeFirstDot t) = true) →
      ((splitOnChar ',' raw).map pyStrip).length ≤ count →
      validate_hard_limit raw count =
        (joinSep ',' (((splitOnChar ',' raw).map pyStrip).map fmt1), none)) ∧
    (∀ t, ∃ a d, fmt1 t = a ++ '.' :: [d] ∧ a ≠ [] ∧
      (∀ c ∈ a, c.isDigit = true) ∧ d.isDigit = true) ∧
    validate_hard_limit ("5,7.25".data) 2 = ("5.0,7.2".data, none) := by
  refine ⟨decimal_shape_iff, ?_, ?_, ?_, fmt1_shape, by decide⟩
  · intro pre t post hsplit hpre ht
    simp only [validate_hard_limit]
    rw [hsplit, hardLimitError_bad pre t post hpre ht]
  · intro hval hcount
    simp only [validate_hard_limit]
    rw [hardLimitError_none _ hval]
    simp only [List.length_map]
    rw [if_pos (by simpa using hcount)]
  · intro hval hcount
    simp only [validate_hard_limit]
    rw [hardLimitError_none _ hval]
    simp only [List.length_map]
    rw [if_neg (by simp only [List.length_map] at hcount ⊢; omega)]

/-- Witness for C5: a malformed token rejects, three limits against two
keys reject, two valid limits against two keys normalize, and the pinned
example holds. -/
theorem c5_hard_limit_validation_witness :
    validate_hard_limit ("5..2".data) 2 = ([], some "Hard limit is not a positive number") ∧
    validate_hard_limit ("1,2,3".data) 2 =
      ([], some "There are more hard limits entered than keys") ∧
    validate_hard_limit ("5,7.25".data) 2 =
      (joinSep ',' ((((splitOnChar ',' ("5,7.25".data)).map pyStrip)).map fmt1), none) ∧
    validate_hard_limit ("5,7.25".data) 2 = ("5.0,7.2".data, none) := by
  have a1 := (c5_hard_limit_validation ("5..2".data) 2).2.1
  have a2 := (c5_hard_limit_validation ("1,2,3".data) 2).2.2.1
  have a3 := (c5_hard_limit_validation ("5,7.25".data) 2).2.2.2.1
  have a4 := (c5_hard_limit_validation ("5,7.25".data) 2).2.2.2.2.2
  exact ⟨a1 [] ("5..2".data) [] (by decide) (by simp) (by decide),
    a2 (by decide) (by decide),
    a3 (by decide) (by decide),
    a4⟩

/-! ### Claim C3 -/

theorem getD_append_middle (pre : List PyStr) (k : PyStr) (suf : List PyStr) :
    (pre ++ k :: suf).getD pre.length [] = k := by
  induction pre with
  | nil => rfl
  | cons p pre ih => simpa using ih

theorem keyErrorAux_site (keys : List PyStr) (s : PyStr) (post : List PyStr)
    (hs : likeSiteId s = true) :
    ∀ pre index, (∀ i, i < pre.length →
        likeSiteId (pre.getD i []) = false ∧
        hasOtherDuplicate keys (index + i) (pre.getD i []) = false) →
      keyErrorAux keys index (pre ++ s :: post) = some "API key looks like a site ID" := by
  intro pre
  induction pre with
  | nil =>
    intro index h
    rw [List.nil_append, keyErrorAux, hs]
    rfl
  | cons p pre ih =>
    intro index h
    have h0 := h 0 (by simp)
    simp only [List.getD_cons_zero, Nat.add_zero] at h0
    rw [List.cons_append, keyErrorAux, h0.1, h0.2]
    simp only [Bool.false_eq_true, if_false]
    refine ih (index + 1) ?_
    intro i hi
    have h1 := h (i + 1) (by simpa using hi)
    simp only [List.getD_cons_succ] at h1
    rw [show index + (i + 1) = index + 1 + i from by omega] at h1
    exact h1

theorem keyErrorAux_dup (keys : List PyStr)
    (hnosite : ∀ k ∈ keys, likeSiteId k = false) :
    ∀ suffix pre, keys = pre ++ suffix →
      (∃ j, pre.length ≤ j ∧ j < keys.length ∧
        hasOtherDuplicate keys j (keys.getD j []) = true) →
      keyErrorAux keys pre.length suffix = some "Duplicate API key specified" := by
  intro suffix
  induction suffix with
  | nil =>
    rintro pre hpre ⟨j, hj1, hj2, _⟩
    rw [hpre, List.append_nil] at hj2
    omega
  | cons k suffix ih =>
    rintro pre hpre ⟨j, hj1, hj2, hj3⟩
    have hk : keys.getD pre.length [] = k := by
      rw [hpre]; exact getD_append_middle pre k suffix
    have hmem : k ∈ keys := by
      rw [hpre]
      exact List.mem_append_right _ (List.mem_cons_self ..)
    rw [keyErrorAux, hnosite k hmem]
    simp only [Bool.false_eq_true, if_false]
    by_cases hd : hasOtherDuplicate keys pre.length k = true
    · rw [hd]
      rfl
    · have hd2 : hasOtherDuplicate keys pre.length k = false :=
        Bool.eq_false_iff.mpr hd
      rw [hd2]
      simp only [Bool.false_eq_true, if_false]
      have hjne : j ≠ pre.length := by
        intro hje
        rw [hje, hk] at hj3
        exact hd (hj3)
      have := ih (pre ++ [k]) (by rw [hpre]; simp)
        ⟨j, by simp only [List.length_append, List.length_cons, List.length_nil]; omega,
          hj2, hj3⟩
      simpa using this

theorem keyErrorAux_clean (keys : List PyStr)
    (hnosite : ∀ k ∈ keys, likeSiteId k = false)
    (hnodup : ∀ i, i < keys.length → hasOtherDuplicate keys i (keys.getD i []) = false) :
    ∀ suffix pre, keys = pre ++ suffix → keyErrorAux keys pre.length suffix = none := by
  intro suffix
  induction suffix with
  | nil => intro pre hpre; rfl
  | cons k suffix ih =>
    intro pre hpre
    have hk : keys.getD pre.length [] = k := by
      rw [hpre]; exact getD_append_middle pre k suffix
    have hmem : k ∈ keys := by
      rw [hpre]
      exact List.mem_append_right _ (List.mem_cons_self ..)
    have hlen : pre.length < keys.length := by rw [hpre]; simp
    have hd := hnodup pre.length hlen
    rw [hk] at hd
    rw [keyErrorAux, hnosite k hmem, hd]
    simp only [Bool.false_eq_true, if_false]
    have := ih (pre ++ [k]) (by rw [hpre]; simp)
    simpa using this

/-- C3: at a site-ID-shaped token the site-shape rejection fires before the
duplicate scan of that token (so it wins even when the token is itself
duplicated), while in a list with no site-shaped token any duplicated token
is rejected with the duplicate reason, wherever it sits. -/
theorem c3_site_check_precedes_duplicate_check (raw : PyStr) :
    (∀ pre s post, splitField raw = pre ++ s :: post →
      likeSiteId s = true →
      (∀ i, i < pre.length → likeSiteId (pre.getD i []) = false ∧
        hasOtherDuplicate (splitField raw) i (pre.getD i []) = false) →
      (validate_api_key raw).2.2 = some "API key looks like a site ID") ∧
    ((∀ k ∈ splitField raw, likeSiteId k = false) →
      (∃ i j, i < (splitField raw).length ∧ j < (splitField raw).length ∧ i ≠ j ∧
        (splitField raw).getD i [] = (splitField raw).getD j []) →
      (validate_api_key raw).2.2 = some "Duplicate API key specified") := by
  constructor
  · intro pre s post hsplit hs hclean
    have h0 : ∀ i, i < pre.length →
        likeSiteId (pre.getD i []) = false ∧
        hasOtherDuplicate (splitField raw) (0 + i) (pre.getD i []) = false := by
      intro i hi
      simpa [Nat.zero_add] using hclean i hi
    have := keyErrorAux_site (splitField raw) s post hs pre 0 h0
    rw [← hsplit] at this
    simp only [validate_api_key, this]
  · rintro hnosite ⟨i, j, hi, hj, hij, hgd⟩
    have hdup : hasOtherDuplicate (splitField raw) i ((splitField raw).getD i []) = true := by
      rw [hasOtherDuplicate, List.any_eq_true]
      refine ⟨j, List.mem_range.mpr hj, ?_⟩
      simp only [decide_eq_true_eq]
      exact ⟨Ne.symm hij, hgd.symm⟩
    have := keyErrorAux_dup (splitField raw) hnosite (splitField raw) [] rfl
      ⟨i, Nat.zero_le i, hi, hdup⟩
    simp only [List.length_nil] at this
    simp only [validate_api_key, this]

/-- Witness for C3: a site-shaped token after one clean key rejects with
the site reason; a list whose site-shaped token is also duplicated still
rejects with the site reason; and a plain duplicate rejects with the
duplicate reason. -/
theorem c3_site_check_precedes_duplicate_check_witness :
    (validate_api_key ("key1,aaaa-bbbb-cccc-dddd".data)).2.2 =
      some "API key looks like a site ID" ∧
    (validate_api_key ("aaaa-bbbb-cccc-dddd,aaaa-bbbb-cccc-dddd".data)).2.2 =
      some "API key looks like a site ID" ∧
    (validate_api_key ("key1,key1".data)).2.2 = some "Duplicate API key specified" := by
  have a1 := (c3_site_check_precedes_duplicate_check ("key1,aaaa-bbbb-cccc-dddd".data)).1
    ["key1".data] ("aaaa-bbbb-cccc-dddd".data) [] (by decide) (by decide) (by decide)
  have a2 := (c3_site_check_precedes_duplicate_check
      ("aaaa-bbbb-cccc-dddd,aaaa-bbbb-cccc-dddd".data)).1
    [] ("aaaa-bbbb-cccc-dddd".data) [("aaaa-bbbb-cccc-dddd".data)]
    (by decide) (by decide) (by simp)
  have a3 := (c3_site_check_precedes_duplicate_check ("key1,key1".data)).2
    (by decide) ⟨0, 1, by decide, by decide, by decide, by decide⟩
  exact ⟨a1, a2, a3⟩

/-! ### Claim C6 -/

theorem foldl_damp_ne (u : Nat → Rat) (L : List Nat) (a : Options) (k : String)
    (hk : ∀ f ∈ L, ¬k = dampKey f) :
    (L.foldl (fun o factor => setOpt o (dampKey factor) (OptVal.f (u factor))) a) k = a k := by
  induction L generalizing a with
  | nil => rfl
  | cons f L ih =>
    rw [List.foldl_cons]
    rw [ih (setOpt a (dampKey f) (OptVal.f (u f)))
      (fun g hg => hk g (List.mem_cons_of_mem _ hg))]
    exact setOpt_ne _ _ _ _ (hk f (List.mem_cons_self ..))

theorem foldl_damp_get (u : Nat → Rat) (L : List Nat) :
    ∀ (a : Options) (i : Nat), i ∈ L → (∀ j ∈ L, dampKey j = dampKey i → j = i) →
      (L.foldl (fun o factor => setOpt o (dampKey factor) (OptVal.f (u factor))) a)
        (dampKey i) = some (OptVal.f (u i)) := by
  induction L with
  | nil => intro a i hmem hinj; cases hmem
  | cons f L ih =>
    intro a i hmem hinj
    rw [List.foldl_cons]
    by_cases hf : i ∈ L
    · exact ih _ i hf (fun j hj he => hinj j (List.mem_cons_of_mem _ hj) he)
    · have hfi : f = i := by
        rcases List.mem_cons.mp hmem with h | h
        · exact h.symm
        · exact absurd h hf
      subst hfi
      rw [foldl_damp_ne u L _ (dampKey f) (fun g hg he =>
        hf ((hinj g (List.mem_cons_of_mem _ hg) he.symm) ▸ hg))]
      exact setOpt_self ..

theorem dampKey_inj : ∀ i, i < 24 → ∀ j, j < 24 → dampKey j = dampKey i → j = i := by decide

theorem dampKey_ne_site : ∀ i, i < 24 → ¬dampKey i = SITE_DAMP := by decide

theorem dampenMerged_spec (acd : Options) (u : Nat → Rat) :
    (∀ i, i < 24 → dampenMerged acd u (dampKey i) = some (OptVal.f (u i))) ∧
    dampenMerged acd u SITE_DAMP = some (OptVal.b false) := by
  constructor
  · intro i hi
    rw [dampenMerged, setOpt_ne _ _ _ _ (dampKey_ne_site i hi)]
    exact foldl_damp_get u (List.range 24) acd i (List.mem_range.mpr hi)
      (fun j hj => dampKey_inj i hi j (List.mem_range.mp hj))
  · rw [dampenMerged]
    exact setOpt_self ..

/-- C6: a successful submission of the dampening sub-step persists a record
whose 24 hourly slots `damp00..damp23` hold exactly the submitted factors
and whose site-level dampening flag is forced to `False`, whatever it was
before. -/
theorem c6_dampen_sets_all_slots_and_clears_flag
    (opts : Options) (draft : Option Options) (u : Nat → Rat)
    (hpre : ((List.range 24).all
      (fun factor => ((draft.getD opts) (dampKey factor)).isSome)) = true) :
    async_step_dampen opts draft (some u) =
      some (FlowResult.updateEntry (dampenMerged (draft.getD opts) u)) ∧
    (∀ i, i < 24 → dampenMerged (draft.getD opts) u (dampKey i) = some (OptVal.f (u i))) ∧
    dampenMerged (draft.getD opts) u SITE_DAMP = some (OptVal.b false) := by
  refine ⟨?_, (dampenMerged_spec _ u).1, (dampenMerged_spec _ u).2⟩
  simp only [async_step_dampen]
  rw [if_pos hpre]

/-- Witness for C6: on the first-setup record, submitting the 24 factors
all equal to `1.0` persists a record with every slot at `1.0` and the
dampening flag cleared. -/
theorem c6_dampen_sets_all_slots_and_clears_flag_witness :
    ((List.range 24).all
      (fun factor => ((Option.getD none sampleOpts) (dampKey factor)).isSome)) = true ∧
    async_step_dampen sampleOpts none (some (fun _ => 1)) =
      some (FlowResult.updateEntry (dampenMerged (Option.getD none sampleOpts) (fun _ => 1))) ∧
    dampenMerged (Option.getD none sampleOpts) (fun _ => 1) (dampKey 5) =
      some (OptVal.f 1) ∧
    dampenMerged (Option.getD none sampleOpts) (fun _ => 1) SITE_DAMP =
      some (OptVal.b false) := by
  have hpre : ((List.range 24).all
      (fun factor => ((Option.getD none sampleOpts) (dampKey factor)).isSome)) = true := by
    decide
  have a := c6_dampen_sets_all_slots_and_clears_flag sampleOpts none (fun _ => 1) hpre
  exact ⟨hpre, a.1, a.2.1 5 (by omega), a.2.2⟩

/-! ### Claim C9 -/

theorem splitOnChar_ne_nil (sep : Char) (s : PyStr) : splitOnChar sep s ≠ [] := by
  induction s with
  | nil => simp [splitOnChar]
  | cons c cs ih =>
    simp only [splitOnChar]
    by_cases hc : c = sep
    · simp [hc]
    · rw [if_neg hc]
      cases hr : splitOnChar sep cs <;> simp

theorem splitOnChar_not_mem (sep : Char) (s : PyStr) :
    ∀ t ∈ splitOnChar sep s, sep ∉ t := by
  induction s with
  | nil =>
    intro t ht
    simp only [splitOnChar, List.mem_singleton] at ht
    subst ht
    simp
  | cons c cs ih =>
    intro t ht
    simp only [splitOnChar] at ht
    by_cases hc : c = sep
    · rw [if_pos hc] at ht
      rcases List.mem_cons.mp ht with h | h
      · subst h; simp
      · exact ih t h
    · rw [if_neg hc] at ht
      cases hr : splitOnChar sep cs with
      | nil => exact absurd hr (splitOnChar_ne_nil sep cs)
      | cons t0 ts =>
        rw [hr] at ht
        rcases List.mem_cons.mp ht with h | h
        · subst h
          intro hmem
          rcases List.mem_cons.mp hmem with h2 | h2
          · exact hc h2.symm
          · exact ih t0 (by rw [hr]; exact List.mem_cons_self ..) h2
        · exact ih t (by rw [hr]; exact List.mem_cons_of_mem _ h)

theorem splitOnChar_chars (sep : Char) (s : PyStr) :
    ∀ t ∈ splitOnChar sep s, ∀ c ∈ t, c ∈ s := by
  induction s with
  | nil =>
    intro t ht c hc
    simp only [splitOnChar, List.mem_singleton] at ht
    subst ht
    cases hc
  | cons a cs ih =>
    intro t ht c hc
    simp only [splitOnChar] at ht
    by_cases ha : a = sep
    · rw [if_pos ha] at ht
      rcases List.mem_cons.mp ht with h | h
      · subst h; cases hc
      · exact List.mem_cons_of_mem _ (ih t h c hc)
    · rw [if_neg ha] at ht
      cases hr : splitOnChar sep cs with
      | nil => exact absurd hr (splitOnChar_ne_nil sep cs)
      | cons t0 ts =>
        rw [hr] at ht
        rcases List.mem_cons.mp ht with h | h
        · subst h
          rcases List.mem_cons.mp hc with h2 | h2
          · exact List.mem_cons.mpr (Or.inl h2)
          · exact List.mem_cons_of_mem _
              (ih t0 (by rw [hr]; exact List.mem_cons_self ..) c h2)
        · exact List.mem_cons_of_mem _
            (ih t (by rw [hr]; exact List.mem_cons_of_mem _ h) c hc)

theorem splitOnChar_no_sep (sep : Char) (t : PyStr) (h : sep ∉ t) :
    splitOnChar sep t = [t] := by
  induction t with
  | nil => rfl
  | cons c cs ih =>
    have hc : ¬c = sep := fun he => h (List.mem_cons.mpr (Or.inl he.symm))
    simp only [splitOnChar]
    rw [if_neg hc, ih (fun hm => h (List.mem_cons_of_mem _ hm))]

theorem splitOnChar_append (sep : Char) (t r : PyStr) (h : sep ∉ t) :
    splitOnChar sep (t ++ sep :: r) = t :: splitOnChar sep r := by
  induction t with
  | nil =>
    simp [splitOnChar]
  | cons c cs ih =>
    have hc : ¬c = sep := fun he => h (List.mem_cons.mpr (Or.inl he.symm))
    simp only [List.cons_append, splitOnChar, List.append_eq]
    rw [if_neg hc, ih (fun hm => h (List.mem_cons_of_mem _ hm))]

theorem joinSep_chars (sep : Char) (ts : List PyStr) :
    ∀ c ∈ joinSep sep ts, c = sep ∨ ∃ t ∈ ts, c ∈ t := by
  induction ts with
  | nil => intro c hc; cases hc
  | cons t ts ih =>
    cases ts with
    | nil =>
      intro c hc
      exact Or.inr ⟨t, List.mem_cons_self .., hc⟩
    | cons u us =>
      intro c hc
      rw [joinSep] at hc
      rcases List.mem_append.mp hc with h | h
      · exact Or.inr ⟨t, List.mem_cons_self .., h⟩
      · rcases List.mem_cons.mp h with h2 | h2
        · exact Or.inl h2
        · rcases ih c h2 with h3 | ⟨v, hv, hcv⟩
          · exact Or.inl h3
          · exact Or.inr ⟨v, List.mem_cons_of_mem _ hv, hcv⟩

theorem splitOnChar_joinSep (sep : Char) (ts : List PyStr)
    (hne : ts ≠ []) (h : ∀ t ∈ ts, sep ∉ t) :
    splitOnChar sep (joinSep sep ts) = ts := by
  induction ts with
  | nil => exact absurd rfl hne
  | cons t ts ih =>
    cases ts with
    | nil =>
      rw [joinSep]
      exact splitOnChar_no_sep sep t (h t (List.mem_cons_self ..))
    | cons u us =>
      rw [joinSep]
      rw [splitOnChar_append sep t _ (h t (List.mem_cons_self ..))]
      rw [ih (by simp) (fun v hv => h v (List.mem_cons_of_mem _ hv))]

theorem splitField_tokens (raw : PyStr) :
    ∀ t ∈ splitField raw, t ≠ [] ∧ ',' ∉ t ∧ ' ' ∉ t := by
  intro t ht
  rw [splitField] at ht
  have h1 := List.mem_filter.mp ht
  refine ⟨by simpa using h1.2, splitOnChar_not_mem ',' _ t h1.1, ?_⟩
  intro hsp
  have h2 := splitOnChar_chars ',' _ t h1.1 ' ' hsp
  rw [pyReplaceSpace] at h2
  have h3 := List.mem_filter.mp h2
  simp at h3

theorem splitField_of_clean (ts : List PyStr) (hne : ts ≠ [])
    (h : ∀ t ∈ ts, t ≠ [] ∧ ',' ∉ t ∧ ' ' ∉ t) :
    splitField (joinSep ',' ts) = ts := by
  have hnospace : pyReplaceSpace (joinSep ',' ts) = joinSep ',' ts := by
    rw [pyReplaceSpace]
    rw [List.filter_eq_self]
    intro c hc
    rcases joinSep_chars ',' ts c hc with h1 | ⟨t, ht, hct⟩
    · subst h1; decide
    · exact decide_eq_true (fun he => (h t ht).2.2 (he ▸ hct))
  rw [splitField, hnospace, splitOnChar_joinSep ',' ts hne (fun t ht => (h t ht).2.1)]
  rw [List.filter_eq_self]
  intro t ht
  simpa using (h t ht).1

theorem splitField_roundtrip (raw : PyStr) :
    splitField (joinSep ',' (splitField raw)) = splitField raw := by
  cases hk : splitField raw with
  | nil => rfl
  | cons k ks =>
    rw [← hk]
    exact splitField_of_clean (splitField raw) (by rw [hk]; simp) (splitField_tokens raw)

/-- C9: a key list whose split tokens are pairwise distinct and free of the
site-ID shape validates successfully, returning exactly those tokens joined
with single commas together with their count, and re-running the validator
on its own normalized output returns that output unchanged with the same
count. -/
theorem c9_valid_keys_roundtrip (raw : PyStr)
    (hnodup : ∀ i, i < (splitField raw).length → ∀ j, j < (splitField raw).length →
      i ≠ j → (splitField raw).getD i [] ≠ (splitField raw).getD j [])
    (hnosite : ∀ k ∈ splitField raw, likeSiteId k = false) :
    validate_api_key raw = (joinSep ',' (splitField raw), (splitField raw).length, none) ∧
    validate_api_key (joinSep ',' (splitField raw)) =
      (joinSep ',' (splitField raw), (splitField raw).length, none) := by
  have hnd : ∀ i, i < (splitField raw).length →
      hasOtherDuplicate (splitField raw) i ((splitField raw).getD i []) = false := by
    intro i hi
    rw [hasOtherDuplicate, List.any_eq_false]
    intro x hx
    simp only [decide_eq_true_eq]
    rintro ⟨hne, heq⟩
    exact hnodup x (List.mem_range.mp hx) i hi hne heq
  have hclean := keyErrorAux_clean (splitField raw) hnosite hnd (splitField raw) [] rfl
  simp only [List.length_nil] at hclean
  constructor
  · simp only [validate_api_key, hclean]
  · have hrt := splitField_roundtrip raw
    simp only [validate_api_key, hrt, hclean]

/-- Witness for C9: the two-key list `"key1, key2"` (with a space)
normalizes to `"key1,key2"` with count 2, and re-validating the normalized
output is the identity. -/
theorem c9_valid_keys_roundtrip_witness :
    (∀ i, i < (splitField ("key1, key2".data)).length →
      ∀ j, j < (splitField ("key1, key2".data)).length → i ≠ j →
      (splitField ("key1, key2".data)).getD i [] ≠
        (splitField ("key1, key2".data)).getD j []) ∧
    (∀ k ∈ splitField ("key1, key2".data), likeSiteId k = false) ∧
    validate_api_key ("key1, key2".data) = ("key1,key2".data, 2, none) ∧
    validate_api_key ("key1,key2".data) = ("key1,key2".data, 2, none) := by
  have h1 : ∀ i, i < (splitField ("key1, key2".data)).length →
      ∀ j, j < (splitField ("key1, key2".data)).length → i ≠ j →
      (splitField ("key1, key2".data)).getD i [] ≠
        (splitField ("key1, key2".data)).getD j [] := by decide
  have h2 : ∀ k ∈ splitField ("key1, key2".data), likeSiteId k = false := by decide
  have a := c9_valid_keys_roundtrip ("key1, key2".data) h1 h2
  refine ⟨h1, h2, a.1.trans (by decide), ?_⟩
  have b := a.2
  rw [show joinSep ',' (splitField ("key1, key2".data)) = "key1,key2".data from by decide] at b
  exact b.trans (by decide)

end SolcastConfigFlow
